import Mathlib

/-!
Verification of the deepsparse pipeline excerpt: a shallow embedding of
`src/deepsparse/yolo/pipelines.py` (class `YOLOPipeline`) and
`src/deepsparse/transformers/pipelines/pipeline.py` (class
`TransformersPipeline`), with theorems settling the behavioural claims
about model introspection, image-batch normalisation, engine-output
postprocessing, and engine-input assembly.

Modelling conventions: Python lists become Lean lists; numpy arrays
become a `shape`/`data` pair where `data` maps a multi-index to a
rational value (numeric values are idealised as `ℚ`); Python dicts
become association lists looked up with `List.lookup`; code that can
raise becomes `Except PyError`.
-/

/-- Declared type of one ONNX tensor as read from the graph: numeric
element-type code (`type.tensor_type.elem_type`) and the list of declared
dimension values (`type.tensor_type.shape.dim`). -/
structure TensorType where
  elemType : Nat
  dims : List Nat
deriving DecidableEq, Repr

instance : Inhabited TensorType := ⟨⟨0, []⟩⟩

/-- The part of an ONNX graph that `YOLOPipeline` inspects: the declared
input and output tensor types (`graph.input`, `graph.output`). -/
structure OnnxGraph where
  input : List TensorType
  output : List TensorType
deriving DecidableEq, Repr

/-- Element-type code `onnx.TensorProto.UINT8`. -/
def TensorProtoUINT8 : Nat := 2

/-- Embedding of `YOLOPipeline.model_has_postprocessing`: collect the
number of dimensions of every declared output; return `True` for a single
output, otherwise `True` exactly when every output after the first has
strictly more dimensions than the first output. -/
def model_has_postprocessing (m : OnnxGraph) : Bool :=
  let outputs_num_dims := m.output.map (fun o => o.dims.length)
  if outputs_num_dims.length = 1 then true
  else (outputs_num_dims.drop 1).all (fun num_dims => outputs_num_dims.headD 0 < num_dims)

/-- Modelled from the spec (for comparison with `model_has_postprocessing`
in claim C1): "single output tensor, or every output has rank ≥ the first
rank of the first output implies postprocessing already applied inside the model
graph". -/
def spec_has_postprocessing (m : OnnxGraph) : Bool :=
  let ranks := m.output.map (fun o => o.dims.length)
  ranks.length == 1 || ranks.all (fun r => ranks.headD 0 ≤ r)

/-- Embedding of `YOLOPipeline.model_is_quantized`: the first declared
element type of the first input equals `onnx.TensorProto.UINT8`. -/
def model_is_quantized (m : OnnxGraph) : Bool :=
  (m.input.headD default).elemType == TensorProtoUINT8

/-- C1 counterexample input: a model with two declared outputs of equal
rank 3. -/
def twoEqualRankOutputs : OnnxGraph :=
  ⟨[], [⟨1, [1, 2, 3]⟩, ⟨1, [1, 2, 3]⟩]⟩

/-- Shallow model of a numpy `ndarray`: the declared shape, and the value
stored at each multi-index (indices are read positionally from the
outermost axis inward). Values are idealised as rationals. -/
structure NDArray where
  shape : List Nat
  data : List Nat → ℚ

instance : Inhabited NDArray := ⟨⟨[], fun _ => 0⟩⟩

/-- Embedding of `numpy.moveaxis(a, -1, dst)`: the last axis is moved to
position `dst`, the other axes keep their relative order. The value at an
output index is the value of `a` at the index with position `dst` removed
and appended at the end. -/
def np_moveaxis_last (dst : Nat) (a : NDArray) : NDArray where
  shape := a.shape.dropLast.take dst ++ a.shape.getLastD 0 :: a.shape.dropLast.drop dst
  data := fun idx => a.data (idx.take dst ++ idx.drop (dst + 1) ++ [idx.getD dst 0])

/-- Embedding of `YOLOPipeline._make_channels_first`: arrays whose last
dimension is not 3 are returned unchanged; otherwise a 3-dimensional
array has its last axis moved to position 0 and a 4-dimensional array has
its last axis moved to position 1; any other rank is returned unchanged. -/
def make_channels_first (image : NDArray) : NDArray :=
  let is_single_image := image.shape.length == 3
  let is_batch := image.shape.length == 4
  if image.shape.getLastD 0 ≠ 3 then image
  else if is_single_image then np_moveaxis_last 0 image
  else if is_batch then np_moveaxis_last 1 image
  else image

/-- Embedding of `numpy.stack(batch, axis=0)`: the result has a new
leading axis of size `batch.length`, and slice `i` of the result is the
`i`-th listed array. -/
def np_stack0 (batch : List NDArray) : NDArray where
  shape := batch.length :: (batch.headD default).shape
  data := fun idx => (batch.getD (idx.headD 0) default).data idx.tail

/-- Embedding of `YOLOPipeline._make_batch`: a singleton list holding an
array that is already 4-dimensional is returned as that array itself;
every other list is stacked along a new leading axis. -/
def make_batch (image_batch : List NDArray) : NDArray :=
  if image_batch.length = 1 then
    let current_batch := image_batch.headD default
    if current_batch.shape.length = 4 then current_batch
    else np_stack0 image_batch
  else np_stack0 image_batch

/-- C4 example array with shape `[2, 2, 3]` and distinct entries. -/
def c4ExampleArray : NDArray :=
  ⟨[2, 2, 3], fun idx => ((idx.foldl (fun acc x => acc * 10 + x) 0 : Nat) : ℚ)⟩

/-- Python exceptions observable in the embedded code paths. `keyError`
is a raw dict-lookup failure; `cv2Error` stands for the opaque error
raised by the OpenCV library when given an invalid argument;
`invalidConfigurationError` and `invalidInputError` are the error classes
the error-handling design of the spec requires. -/
inductive PyError where
  | keyError (key : String)
  | valueError (msg : String)
  | cv2Error
  | invalidConfigurationError (msg : String)
  | invalidInputError (index : Nat)
deriving DecidableEq, Repr

/-- Evaluation of a Python list comprehension whose element expression
may raise: elements are produced left to right and the first raised
error aborts the whole comprehension. -/
def map_except {α β : Type} (f : α → Except PyError β) : List α → Except PyError (List β)
  | [] => .ok []
  | x :: xs =>
    match f x with
    | .error e => .error e
    | .ok y =>
      match map_except f xs with
      | .error e => .error e
      | .ok ys => .ok (y :: ys)

/-- Python dict `__getitem__` on a string-keyed dict: the stored value
when the key is present, a raw `KeyError` otherwise. -/
def dict_getitem (d : List (String × String)) (key : String) : Except PyError String :=
  match d.lookup key with
  | some v => .ok v
  | none => .error (.keyError key)

/-- Conversion of a numpy float value to a Python int as done by
`astype(int)`: truncation toward zero. -/
def rat_trunc (q : ℚ) : ℤ := Int.tdiv q.num (q.den : ℤ)

/-- Embedding of the `YOLOOutput` schema: per-image lists of raw
prediction rows, boxes, scores and labels. -/
structure YOLOOutput where
  predictions : List (List (List ℚ))
  boxes : List (List (List ℚ))
  scores : List (List ℚ)
  labels : List (List String)
deriving DecidableEq, Repr

/-- Embedding of one iteration of the output loop of
`YOLOPipeline.process_engine_outputs`: from the post-NMS rows of one image,
produce `image_output.tolist()`, `image_output[:, 0:4].tolist()`,
`image_output[:, 4].tolist()`, and the label list obtained by looking up
`str(int(row[5]))` in the class-name dict (a missing key raises). -/
def process_image_output (d : List (String × String)) (image_output : List (List ℚ)) :
    Except PyError (List (List ℚ) × List (List ℚ) × List ℚ × List String) :=
  match map_except (fun row => dict_getitem d (toString (rat_trunc (row.getD 5 0)))) image_output with
  | .error e => .error e
  | .ok labels =>
    .ok (image_output, image_output.map (fun row => row.take 4),
      image_output.map (fun row => row.getD 4 0), labels)

/-- Embedding of the output-assembly loop of
`YOLOPipeline.process_engine_outputs`: iterate over the post-NMS batch in
order, appending the predictions, boxes, scores and labels of each image. -/
def build_yolo_output (d : List (String × String)) :
    List (List (List ℚ)) → Except PyError YOLOOutput
  | [] => .ok ⟨[], [], [], []⟩
  | image_output :: rest =>
    match process_image_output d image_output with
    | .error e => .error e
    | .ok (p, b, s, lab) =>
      match build_yolo_output d rest with
      | .error e => .error e
      | .ok out => .ok ⟨p :: out.predictions, b :: out.boxes, s :: out.scores, lab :: out.labels⟩

/-- Model of the external `YoloPostprocessor` object: only its pre-NMS
hook matters here; `T` is the tensor type it consumes and produces. -/
structure YoloPostprocessor (T : Type) where
  pre_nms_postprocess : List T → T

/-- Embedding of the postprocessor initialisation in
`YOLOPipeline.__init__`: `None` when the model already has
postprocessing, otherwise a freshly constructed `YoloPostprocessor`. -/
def init_postprocessor {T : Type} (has_postprocessing : Bool)
    (mk : Unit → YoloPostprocessor T) : Option (YoloPostprocessor T) :=
  if has_postprocessing then none else some (mk ())

/-- Embedding of the batch-output selection at the top of
`YOLOPipeline.process_engine_outputs`: a stored postprocessor is applied
to the engine outputs, otherwise the first engine output is used as the
already-post-processed batch. -/
def select_batch_output {T : Type} [Inhabited T]
    (postprocessor : Option (YoloPostprocessor T)) (engine_outputs : List T) : T :=
  match postprocessor with
  | some pp => pp.pre_nms_postprocess engine_outputs
  | none => engine_outputs.headD default

/-- A model whose graph declares a single output tensor, so that its
construction-time flag is `true`. -/
def singleOutputGraph : OnnxGraph := ⟨[], [⟨1, [1, 2, 3]⟩]⟩

/-- Conversion of a numeric value to numpy `int8`, as done by
`numpy.ascontiguousarray(..., dtype=numpy.int8)`: truncation toward zero
followed by twos-complement wraparound into `[-128, 127]`. -/
def int8_cast (q : ℚ) : ℤ := (rat_trunc q + 128).emod 256 - 128

/-- Embedding of the dtype stage at the end of
`YOLOPipeline.process_inputs`: quantized pipelines cast every element to
`int8`; non-quantized pipelines cast to float (exact in this model) and
then divide every element by 255 in place. -/
def apply_dtype_cast (is_quantized : Bool) (batch : NDArray) : NDArray :=
  if is_quantized then
    { batch with data := fun idx => ((int8_cast (batch.data idx) : ℤ) : ℚ) }
  else
    { batch with data := fun idx => batch.data idx / 255 }

/-- A model whose first declared input is a float tensor, so that its
quantized flag is `false`. -/
def floatInputGraph : OnnxGraph := ⟨[⟨1, [1, 3, 640, 640]⟩], [⟨1, [1, 2, 3]⟩]⟩

/-- A concrete 4-dimensional batch whose every element is 51. -/
def constBatch : NDArray := ⟨[1, 3, 2, 2], fun _ => 51⟩

/-- C6 example class-name map. -/
def c6Map : List (String × String) := [("0", "person")]

/-- C6 example post-NMS batch: one image with one detection row. -/
def c6Batch : List (List (List ℚ)) := [[[1, 2, 3, 4, 5, 0]]]

/-- C6 example assembled output. -/
def c6Out : YOLOOutput :=
  ⟨[[[1, 2, 3, 4, 5, 0]]], [[[1, 2, 3, 4]]], [[5]], [["person"]]⟩

/-- One image reference in a YOLO input batch: a filesystem path to be
decoded, or an already-numeric array (a nested list is converted with
`numpy.asarray` before this point and is likewise an array). -/
inductive ImageInput where
  | path (s : String)
  | arr (a : NDArray)

/-- Embedding of the per-image loading step of
`YOLOPipeline.process_inputs`: an array is used as is; a string is read
with `cv2.imread` — which yields `None` for an unreadable path — and then
resized with `cv2.resize`, which raises an opaque OpenCV error when
handed `None`; each loaded image is then made channels-first. `imread`
and `resize` stand for the external OpenCV routines. -/
def load_image (imread : String → Option NDArray) (resize : NDArray → NDArray) :
    ImageInput → Except PyError NDArray
  | .path s =>
    match imread s with
    | none => .error .cv2Error
    | some img => .ok (make_channels_first (resize img))
  | .arr a => .ok (make_channels_first a)

/-- Embedding of the image loop, batch assembly and dtype cast of
`YOLOPipeline.process_inputs`. -/
def process_inputs_model (imread : String → Option NDArray) (resize : NDArray → NDArray)
    (is_quantized : Bool) (images : List ImageInput) : Except PyError NDArray :=
  match map_except (load_image imread resize) images with
  | .error e => .error e
  | .ok image_batch => .ok (apply_dtype_cast is_quantized (make_batch image_batch))

/-- Embedding of `TransformersPipeline.tokens_to_engine_input`: raise
when some declared ONNX input name is missing from the tokenizer output,
otherwise return the token arrays reordered by the declared input-name
order. -/
def tokens_to_engine_input {Arr : Type} [Inhabited Arr] (onnx_input_names : List String)
    (tokens : List (String × Arr)) : Except PyError (List Arr) :=
  if (onnx_input_names.all fun name => (tokens.lookup name).isSome) = false then
    .error (.valueError "pipeline expected arrays with names matching the model input names")
  else
    .ok (onnx_input_names.map fun name => (tokens.lookup name).getD default)

/-- A Python value as it may arrive in the `class_names` argument of
`YOLOPipeline.__init__` or come back from `json.load`: a string, a
string-keyed dict, a list of names, or a value of some other type
(represented by an integer). -/
inductive PyValue where
  | str (s : String)
  | dict (d : List (String × String))
  | list (l : List String)
  | pyInt (n : ℤ)
deriving DecidableEq, Repr

/-- Python type name of a `PyValue`, as interpolated into the error
message by `type(class_names)`. -/
def PyValue.typeName : PyValue → String
  | .str _ => "str"
  | .dict _ => "dict"
  | .list _ => "list"
  | .pyInt _ => "int"

/-- Embedding of the `class_names` resolution in `YOLOPipeline.__init__`:
a string ending in `.json` is replaced by the loaded JSON value, the
string `"coco"` by the built-in COCO class list, and any other string
raises; then a dict is stored as is, a list is stored as the dict
`{str(index): class_name}` built by enumeration in list order, and
anything else raises. `jsonLoad` stands for `json.load(open(...))`. -/
def resolve_class_names (jsonLoad : String → PyValue) (cocoClasses : List String)
    (class_names : PyValue) : Except PyError (List (String × String)) :=
  let resolved : Except PyError PyValue :=
    match class_names with
    | .str s =>
      if s.endsWith ".json" then .ok (jsonLoad s)
      else if s = "coco" then .ok (.list cocoClasses)
      else .error (.valueError ("Unknown class_names: " ++ s))
    | v => .ok v
  match resolved with
  | .error e => .error e
  | .ok (.dict d) => .ok d
  | .ok (.list l) => .ok (l.enum.map fun p => (toString p.1, p.2))
  | .ok v => .error (.valueError
      ("class_names must be a str identifier, dict, json file, or list of class names got "
        ++ v.typeName))

/-- C1, counterexample: on a model with two outputs of equal rank, the
flag computed by the code is `false` (it demands strictly greater rank after the first),
while the spec condition "every output has rank at least the rank of the first output"
condition holds, so the claimed `iff` fails. -/
theorem c1_counterexample_twoEqualRankOutputs :
    model_has_postprocessing twoEqualRankOutputs = false ∧
      spec_has_postprocessing twoEqualRankOutputs = true := by
  decide

/-- C1 (amended): `model_has_postprocessing` is `true` iff the model
declares exactly one output tensor, or every output after the first has
rank strictly greater than the rank of the first output. -/
theorem c1_model_has_postprocessing_iff (m : OnnxGraph) :
    model_has_postprocessing m = true ↔
      (m.output.length = 1 ∨
        ∀ r ∈ (m.output.map (fun o => o.dims.length)).drop 1,
          (m.output.headD default).dims.length < r) := by
  unfold model_has_postprocessing
  cases m.output with
  | nil => simp
  | cons a tl =>
    cases tl with
    | nil => simp
    | cons b tl2 =>
      simp [List.all_eq_true]

/-- C1 amended-theorem witness: the characterisation evaluated on the
concrete two-output model. -/
theorem c1_model_has_postprocessing_iff_witness :
    model_has_postprocessing twoEqualRankOutputs = true ↔
      (twoEqualRankOutputs.output.length = 1 ∨
        ∀ r ∈ (twoEqualRankOutputs.output.map (fun o => o.dims.length)).drop 1,
          (twoEqualRankOutputs.output.headD default).dims.length < r) :=
  c1_model_has_postprocessing_iff twoEqualRankOutputs

/-- C4: `_make_channels_first` moves the last axis (of size 3) to
position 0 on a 3-dimensional array and to position 1 on a 4-dimensional
array — stated as the induced shape permutation together with the
pointwise value relocation — and returns any array whose last dimension
is not 3 unchanged. -/
theorem c4_make_channels_first_spec (a : NDArray) (hne : a.shape ≠ []) :
    (∀ h w, a.shape = [h, w, 3] →
      (make_channels_first a).shape = [3, h, w] ∧
      ∀ c i j, (make_channels_first a).data [c, i, j] = a.data [i, j, c]) ∧
    (∀ n h w, a.shape = [n, h, w, 3] →
      (make_channels_first a).shape = [n, 3, h, w] ∧
      ∀ b c i j, (make_channels_first a).data [b, c, i, j] = a.data [b, i, j, c]) ∧
    (a.shape.getLastD 0 ≠ 3 → make_channels_first a = a) := by
  refine ⟨?_, ?_, ?_⟩
  · intro h w hshape
    constructor
    · simp [make_channels_first, np_moveaxis_last, hshape]
    · intro c i j
      simp [make_channels_first, np_moveaxis_last, hshape]
  · intro n h w hshape
    constructor
    · simp [make_channels_first, np_moveaxis_last, hshape]
    · intro b c i j
      simp [make_channels_first, np_moveaxis_last, hshape]
  · intro hlast
    simp only [make_channels_first]
    rw [if_pos hlast]

/-- C4 witness: the channels-first relocation evaluated on a concrete
3-dimensional array with last dimension 3. -/
theorem c4_make_channels_first_spec_witness :
    c4ExampleArray.shape ≠ [] ∧
      ((make_channels_first c4ExampleArray).shape = [3, 2, 2] ∧
        (make_channels_first c4ExampleArray).data [2, 0, 1] = c4ExampleArray.data [0, 1, 2]) := by
  refine ⟨by decide, ?_, ?_⟩
  · exact ((c4_make_channels_first_spec c4ExampleArray (by decide)).1 2 2 rfl).1
  · exact ((c4_make_channels_first_spec c4ExampleArray (by decide)).1 2 2 rfl).2 2 0 1

/-- C5: `_make_batch` returns a lone already-4-dimensional array as the
batch itself, and in every other case stacks the listed images along a
new leading axis in list order. -/
theorem c5_make_batch_spec (l : List NDArray) :
    (∀ a, l = [a] → a.shape.length = 4 → make_batch l = a) ∧
    (¬ (l.length = 1 ∧ (l.headD default).shape.length = 4) →
      (make_batch l).shape = l.length :: (l.headD default).shape ∧
      ∀ i idx, (make_batch l).data (i :: idx) = (l.getD i default).data idx) := by
  constructor
  · rintro a rfl h4
    simp [make_batch, h4]
  · intro hnot
    have hmb : make_batch l = np_stack0 l := by
      simp only [make_batch]
      by_cases h1 : l.length = 1
      · rw [if_pos h1]
        by_cases h4 : (l.headD default).shape.length = 4
        · exact absurd ⟨h1, h4⟩ hnot
        · rw [if_neg h4]
      · rw [if_neg h1]
    refine ⟨by simp [hmb, np_stack0], ?_⟩
    intro i idx
    simp [hmb, np_stack0]

/-- C5 witness: stacking two concrete 1-dimensional arrays. -/
theorem c5_make_batch_spec_witness :
    (∀ a, ([⟨[2], fun _ => 5⟩, ⟨[2], fun _ => 7⟩] : List NDArray) = [a] →
        a.shape.length = 4 →
        make_batch [⟨[2], fun _ => 5⟩, ⟨[2], fun _ => 7⟩] = a) ∧
    (¬ (([⟨[2], fun _ => 5⟩, ⟨[2], fun _ => 7⟩] : List NDArray).length = 1 ∧
          (([⟨[2], fun _ => 5⟩, ⟨[2], fun _ => 7⟩] : List NDArray).headD default).shape.length = 4) →
      (make_batch [⟨[2], fun _ => 5⟩, ⟨[2], fun _ => 7⟩]).shape = [2, 2] ∧
      ∀ i idx, (make_batch [⟨[2], fun _ => 5⟩, ⟨[2], fun _ => 7⟩]).data (i :: idx) =
        (([⟨[2], fun _ => 5⟩, ⟨[2], fun _ => 7⟩] : List NDArray).getD i default).data idx) :=
  c5_make_batch_spec [⟨[2], fun _ => 5⟩, ⟨[2], fun _ => 7⟩]

/-- Helper: a successful `map_except` run has one output per input, and
the function succeeded pointwise with exactly the listed results. -/
theorem map_except_ok {α β : Type} (f : α → Except PyError β) (l : List α) (ys : List β)
    (h : map_except f l = .ok ys) (d₁ : α) (d₂ : β) :
    ys.length = l.length ∧ ∀ i, i < l.length → f (l.getD i d₁) = .ok (ys.getD i d₂) := by
  induction l generalizing ys with
  | nil =>
    simp only [map_except] at h
    cases h
    simp
  | cons x xs ih =>
    cases hfx : f x with
    | error e => simp [map_except, hfx] at h
    | ok y =>
      cases hrest : map_except f xs with
      | error e => simp [map_except, hfx, hrest] at h
      | ok ys2 =>
        simp only [map_except, hfx, hrest] at h
        cases h
        obtain ⟨hlen, hpt⟩ := ih ys2 hrest
        refine ⟨by simp [hlen], ?_⟩
        intro i hi
        cases i with
        | zero => simpa using hfx
        | succ n => simpa using hpt n (by simpa using hi)

/-- Helper: `getD` through `List.map` at an in-range index applies the
mapped function to the corresponding source element. -/
theorem getD_map_of_lt {α β : Type} (f : α → β) (l : List α) (j : Nat)
    (hj : j < l.length) (d₁ : α) (d₂ : β) :
    (l.map f).getD j d₂ = f (l.getD j d₁) := by
  induction l generalizing j with
  | nil => simp at hj
  | cons x xs ih =>
    cases j with
    | zero => simp
    | succ n => simpa using ih n (by simpa using hj)

/-- Helper: a successful `process_image_output` returns the rows as
predictions, columns 0-3 as boxes, column 4 as scores, and one label per
row obtained by a successful class-name lookup on `str(int(row[5]))`. -/
theorem process_image_output_ok (d : List (String × String)) (io : List (List ℚ))
    (p b : List (List ℚ)) (s : List ℚ) (lab : List String)
    (h : process_image_output d io = .ok (p, b, s, lab)) :
    p = io ∧ b = io.map (fun row => row.take 4) ∧
      s = io.map (fun row => row.getD 4 0) ∧ lab.length = io.length ∧
      ∀ j, j < io.length →
        d.lookup (toString (rat_trunc ((io.getD j []).getD 5 0))) = some (lab.getD j "") := by
  cases hm : map_except (fun row => dict_getitem d (toString (rat_trunc (row.getD 5 0)))) io with
  | error e =>
    simp only [process_image_output] at h
    rw [hm] at h
    cases h
  | ok labels =>
    simp only [process_image_output] at h
    rw [hm] at h
    simp only [Except.ok.injEq, Prod.mk.injEq] at h
    obtain ⟨hp, hb, hs, hlab⟩ := h
    subst hp
    subst hb
    subst hs
    subst hlab
    obtain ⟨hlen, hpt⟩ := map_except_ok _ io labels hm [] ""
    refine ⟨rfl, rfl, rfl, hlen, ?_⟩
    intro j hj
    have hj2 := hpt j hj
    unfold dict_getitem at hj2
    cases hl : d.lookup (toString (rat_trunc ((io.getD j []).getD 5 0))) with
    | none => rw [hl] at hj2; cases hj2
    | some v => rw [hl] at hj2; cases hj2; rfl

/-- C6: on every successfully processed post-NMS batch, the assembled
`YOLOOutput` has `predictions` equal to the batch rows, and per image the
`boxes`, `scores`, `labels` lists are parallel to that image and its
predictions: equal length, `boxes` entries are the first four elements of
the prediction row, `scores` entries are its fifth element, and each
label is the class-name-map entry for the string of the integer cast of
its sixth element. -/
theorem c6_yolo_output_parallel (d : List (String × String))
    (batch_output : List (List (List ℚ))) (out : YOLOOutput)
    (h : build_yolo_output d batch_output = .ok out) :
    out.predictions = batch_output ∧
    out.boxes.length = batch_output.length ∧
    out.scores.length = batch_output.length ∧
    out.labels.length = batch_output.length ∧
    ∀ i, i < batch_output.length →
      (out.boxes.getD i []).length = (batch_output.getD i []).length ∧
      (out.scores.getD i []).length = (batch_output.getD i []).length ∧
      (out.labels.getD i []).length = (batch_output.getD i []).length ∧
      ∀ j, j < (batch_output.getD i []).length →
        (out.boxes.getD i []).getD j [] = ((batch_output.getD i []).getD j []).take 4 ∧
        (out.scores.getD i []).getD j 0 = ((batch_output.getD i []).getD j []).getD 4 0 ∧
        d.lookup (toString (rat_trunc (((batch_output.getD i []).getD j []).getD 5 0))) =
          some ((out.labels.getD i []).getD j "") := by
  induction batch_output generalizing out with
  | nil =>
    simp only [build_yolo_output] at h
    cases h
    simp
  | cons io rest ih =>
    cases hpi : process_image_output d io with
    | error e => simp [build_yolo_output, hpi] at h
    | ok quad =>
      obtain ⟨p, b, s, lab⟩ := quad
      cases hrest : build_yolo_output d rest with
      | error e => simp [build_yolo_output, hpi, hrest] at h
      | ok out2 =>
        simp only [build_yolo_output, hpi, hrest, Except.ok.injEq] at h
        subst h
        obtain ⟨hp, hb, hs, hlablen, hlab⟩ := process_image_output_ok d io p b s lab hpi
        subst hp
        subst hb
        subst hs
        obtain ⟨ihpred, ihblen, ihslen, ihllen, ihpt⟩ := ih out2 hrest
        refine ⟨by simp [ihpred], by simp [ihblen], by simp [ihslen], by simp [ihllen], ?_⟩
        intro i hi
        cases i with
        | zero =>
          refine ⟨by simp, by simp, by simpa using hlablen, ?_⟩
          intro j hj
          refine ⟨?_, ?_, ?_⟩
          · simpa using getD_map_of_lt (fun row => row.take 4) p j (by simpa using hj) [] []
          · simpa using getD_map_of_lt (fun row => row.getD 4 0) p j (by simpa using hj) [] 0
          · simpa using hlab j (by simpa using hj)
        | succ n =>
          have hn : n < rest.length := by simpa using hi
          simpa using ihpt n hn

/-- C2: with the postprocessor stored at construction from the
`has_postprocessing` flag, `process_engine_outputs` applies the pre-NMS
postprocessor exactly when the flag is `false`, and uses the first engine
output directly when the flag is `true`; the selection depends only on
the stored value, not on the model. -/
theorem c2_postprocessing_branches_on_flag {T : Type} [Inhabited T]
    (m : OnnxGraph) (mk : Unit → YoloPostprocessor T)
    (engine_outputs : List T) (hne : engine_outputs ≠ []) :
    (model_has_postprocessing m = false →
      select_batch_output (init_postprocessor (model_has_postprocessing m) mk) engine_outputs =
        (mk ()).pre_nms_postprocess engine_outputs) ∧
    (model_has_postprocessing m = true →
      select_batch_output (init_postprocessor (model_has_postprocessing m) mk) engine_outputs =
        engine_outputs.headD default) := by
  constructor <;> intro hflag <;>
    simp [init_postprocessor, select_batch_output, hflag]

/-- C2 witness: the branch selection evaluated on a single-output model
(flag `true`) with a concrete engine-output list. -/
theorem c2_postprocessing_branches_on_flag_witness :
    ([5] : List ℕ) ≠ [] ∧
      ((model_has_postprocessing singleOutputGraph = false →
        select_batch_output
          (init_postprocessor (model_has_postprocessing singleOutputGraph) (fun _ => ⟨fun _ => 7⟩))
          [5] = (YoloPostprocessor.mk fun _ => 7).pre_nms_postprocess [5]) ∧
      (model_has_postprocessing singleOutputGraph = true →
        select_batch_output
          (init_postprocessor (model_has_postprocessing singleOutputGraph) (fun _ => ⟨fun _ => 7⟩))
          [5] = ([5] : List ℕ).headD default)) :=
  ⟨by decide,
    c2_postprocessing_branches_on_flag singleOutputGraph (fun _ => ⟨fun _ => 7⟩) [5] (by decide)⟩

/-- C3: the quantized path is selected exactly when the first
declared input element type is `UINT8`; on the quantized path every batch
element is cast to a signed 8-bit integer, and in-range integer values
are unchanged (no rescaling); on the float path every element is divided
by 255, which maps values in `[0, 255]` into `[0, 1]`. -/
theorem c3_dtype_cast_spec (m : OnnxGraph) (batch : NDArray) :
    (model_is_quantized m = true ↔ (m.input.headD default).elemType = TensorProtoUINT8) ∧
    (model_is_quantized m = true →
      (∀ idx, (apply_dtype_cast (model_is_quantized m) batch).data idx =
        ((int8_cast (batch.data idx) : ℤ) : ℚ)) ∧
      ∀ n : ℤ, -128 ≤ n → n ≤ 127 → int8_cast (n : ℚ) = n) ∧
    (model_is_quantized m = false →
      ∀ idx, (apply_dtype_cast (model_is_quantized m) batch).data idx = batch.data idx / 255 ∧
        (0 ≤ batch.data idx → batch.data idx ≤ 255 →
          0 ≤ (apply_dtype_cast (model_is_quantized m) batch).data idx ∧
            (apply_dtype_cast (model_is_quantized m) batch).data idx ≤ 1)) := by
  refine ⟨by simp [model_is_quantized], ?_, ?_⟩
  · intro hq
    refine ⟨fun idx => by simp [apply_dtype_cast, hq], ?_⟩
    intro n hlo hhi
    have htr : rat_trunc (n : ℚ) = n := by
      simp [rat_trunc]
    have hmod : (n + 128).emod 256 = n + 128 :=
      Int.emod_eq_of_lt (by omega) (by omega)
    simp [int8_cast, htr, hmod]
  · intro hq idx
    refine ⟨by simp [apply_dtype_cast, hq], ?_⟩
    intro h0 h255
    constructor
    · simp only [apply_dtype_cast, hq, Bool.false_eq_true, if_false]
      positivity
    · simp only [apply_dtype_cast, hq, Bool.false_eq_true, if_false]
      rw [div_le_one (by norm_num)]
      linarith

/-- C3 witness: the dtype-cast characterisation evaluated on a concrete
float-input model and batch. -/
theorem c3_dtype_cast_spec_witness :
    (model_is_quantized floatInputGraph = true ↔
      (floatInputGraph.input.headD default).elemType = TensorProtoUINT8) ∧
    (model_is_quantized floatInputGraph = true →
      (∀ idx, (apply_dtype_cast (model_is_quantized floatInputGraph) constBatch).data idx =
        ((int8_cast (constBatch.data idx) : ℤ) : ℚ)) ∧
      ∀ n : ℤ, -128 ≤ n → n ≤ 127 → int8_cast (n : ℚ) = n) ∧
    (model_is_quantized floatInputGraph = false →
      ∀ idx, (apply_dtype_cast (model_is_quantized floatInputGraph) constBatch).data idx =
          constBatch.data idx / 255 ∧
        (0 ≤ constBatch.data idx → constBatch.data idx ≤ 255 →
          0 ≤ (apply_dtype_cast (model_is_quantized floatInputGraph) constBatch).data idx ∧
            (apply_dtype_cast (model_is_quantized floatInputGraph) constBatch).data idx ≤ 1)) :=
  c3_dtype_cast_spec floatInputGraph constBatch

/-- C6 witness: the parallel-fields property evaluated on a concrete
one-image batch whose class id 0 maps to "person". -/
theorem c6_yolo_output_parallel_witness :
    build_yolo_output c6Map c6Batch = .ok c6Out ∧
      (c6Out.predictions = c6Batch ∧
      c6Out.boxes.length = c6Batch.length ∧
      c6Out.scores.length = c6Batch.length ∧
      c6Out.labels.length = c6Batch.length ∧
      ∀ i, i < c6Batch.length →
        (c6Out.boxes.getD i []).length = (c6Batch.getD i []).length ∧
        (c6Out.scores.getD i []).length = (c6Batch.getD i []).length ∧
        (c6Out.labels.getD i []).length = (c6Batch.getD i []).length ∧
        ∀ j, j < (c6Batch.getD i []).length →
          (c6Out.boxes.getD i []).getD j [] = ((c6Batch.getD i []).getD j []).take 4 ∧
          (c6Out.scores.getD i []).getD j 0 = ((c6Batch.getD i []).getD j []).getD 4 0 ∧
          c6Map.lookup (toString (rat_trunc (((c6Batch.getD i []).getD j []).getD 5 0))) =
            some ((c6Out.labels.getD i []).getD j "")) :=
  ⟨rfl, c6_yolo_output_parallel c6Map c6Batch c6Out rfl⟩

/-- C7, failing input evaluated: looking up a detection whose class id
(999) is not a key of the class-name map makes `process_engine_outputs`
propagate the raw dict `KeyError` — not the `InvalidConfigurationError`
the error-handling design requires. -/
theorem c7_unknown_class_id_raises_keyerror :
    build_yolo_output [("0", "person")] [[[0, 0, 10, 10, 1, 999]]] =
      .error (.keyError "999") := rfl

/-- C8, failing input evaluated: a batch whose only image is an
unreadable path makes `process_inputs` fail with the opaque OpenCV error
(`cv2.imread` returns `None` unchecked and `cv2.resize` then raises) —
not the index-naming `InvalidInputError` the error-handling design
requires. -/
theorem c8_unreadable_path_raises_cv2_error :
    process_inputs_model (fun _ => none) (fun a => a) false [.path "/nonexistent.jpg"] =
      .error PyError.cv2Error := rfl

/-- C9: `tokens_to_engine_input` raises exactly when some declared input
name is missing from the tokens mapping; on success it returns one array
per declared name, and the `i`-th returned array is the token array
stored under the `i`-th declared name. -/
theorem c9_tokens_to_engine_input_spec {Arr : Type} [Inhabited Arr]
    (names : List String) (tokens : List (String × Arr)) :
    ((∃ e, tokens_to_engine_input names tokens = .error e) ↔
      ∃ name ∈ names, tokens.lookup name = none) ∧
    ∀ arrs, tokens_to_engine_input names tokens = .ok arrs →
      arrs.length = names.length ∧
      ∀ i, i < names.length →
        tokens.lookup (names.getD i "") = some (arrs.getD i default) := by
  by_cases hall : (names.all fun name => (tokens.lookup name).isSome) = true
  · have hne : ¬ ((names.all fun name => (tokens.lookup name).isSome) = false) := by
      simp [hall]
    constructor
    · constructor
      · rintro ⟨e, he⟩
        simp only [tokens_to_engine_input] at he
        rw [if_neg hne] at he
        cases he
      · rintro ⟨name, hmem, hnone⟩
        have h2 := List.all_eq_true.mp hall name hmem
        rw [hnone] at h2
        cases h2
    · intro arrs harrs
      simp only [tokens_to_engine_input] at harrs
      rw [if_neg hne] at harrs
      injection harrs with harrs
      subst harrs
      refine ⟨by simp, ?_⟩
      intro i hi
      have hmem : names.getD i "" ∈ names := by
        rw [List.getD_eq_getElem names "" hi]
        exact List.getElem_mem hi
      have hsome := List.all_eq_true.mp hall _ hmem
      rw [getD_map_of_lt (fun name => (tokens.lookup name).getD default) names i hi "" default]
      cases hl : tokens.lookup (names.getD i "") with
      | none => rw [hl] at hsome; cases hsome
      | some v => simp [hl]
  · have hfalse : (names.all fun name => (tokens.lookup name).isSome) = false := by
      simpa using hall
    constructor
    · constructor
      · intro _
        obtain ⟨name, hmem, hp⟩ := List.all_eq_false.mp hfalse
        refine ⟨name, hmem, ?_⟩
        cases hlk : tokens.lookup name with
        | none => rfl
        | some v => rw [hlk] at hp; exact absurd rfl hp
      · intro _
        exact ⟨_, by simp only [tokens_to_engine_input]; rw [if_pos hfalse]⟩
    · intro arrs harrs
      simp only [tokens_to_engine_input] at harrs
      rw [if_pos hfalse] at harrs
      cases harrs

/-- C9 witness: the characterisation evaluated on two declared names and
a tokens mapping that stores both, in the opposite order. -/
theorem c9_tokens_to_engine_input_spec_witness :
    ((∃ e, tokens_to_engine_input ["input_ids", "attention_mask"]
        [("attention_mask", (2 : ℕ)), ("input_ids", 1)] = .error e) ↔
      ∃ name ∈ ["input_ids", "attention_mask"],
        ([("attention_mask", (2 : ℕ)), ("input_ids", 1)] : List (String × ℕ)).lookup name = none) ∧
    ∀ arrs, tokens_to_engine_input ["input_ids", "attention_mask"]
        [("attention_mask", (2 : ℕ)), ("input_ids", 1)] = .ok arrs →
      arrs.length = (["input_ids", "attention_mask"] : List String).length ∧
      ∀ i, i < (["input_ids", "attention_mask"] : List String).length →
        ([("attention_mask", (2 : ℕ)), ("input_ids", 1)] : List (String × ℕ)).lookup
            ((["input_ids", "attention_mask"] : List String).getD i "") =
          some (arrs.getD i default) :=
  c9_tokens_to_engine_input_spec ["input_ids", "attention_mask"]
    [("attention_mask", 2), ("input_ids", 1)]

/-- C10: a `class_names` list is accepted and converted to the
`{str(index): name}` mapping in list order — the `i`-th stored entry is
the pair of the decimal string of `i` and the `i`-th listed name — while
a `class_names` value that is neither a recognised string nor a dict nor
a list makes construction fail with an error. -/
theorem c10_class_names_list_accepted (jsonLoad : String → PyValue)
    (cocoClasses : List String) :
    (∀ l, resolve_class_names jsonLoad cocoClasses (.list l) =
      .ok (l.enum.map fun p => (toString p.1, p.2))) ∧
    (∀ (l : List String) (i : Nat), i < l.length →
      (l.enum.map fun p => (toString p.1, p.2)).getD i ("", "") =
        (toString i, l.getD i "")) ∧
    (∀ n, resolve_class_names jsonLoad cocoClasses (.pyInt n) =
      .error (.valueError
        ("class_names must be a str identifier, dict, json file, or list of class names got int"))) := by
  refine ⟨fun l => rfl, ?_, fun n => rfl⟩
  intro l i hi
  have hlen : i < l.enum.length := by simpa using hi
  rw [getD_map_of_lt (fun p => (toString p.1, p.2)) l.enum i hlen (0, "") ("", "")]
  have henum : l.enum.getD i (0, "") = (i, l.getD i "") := by
    rw [List.getD_eq_getElem _ _ hlen, List.getElem_enum, List.getD_eq_getElem _ _ hi]
  rw [henum]

/-- C10 witness: the list conversion and the bad-type error evaluated on
a concrete two-element class list and the integer 7. -/
theorem c10_class_names_list_accepted_witness :
    resolve_class_names (fun _ => PyValue.pyInt 0) [] (.list ["person", "bicycle"]) =
      .ok ((["person", "bicycle"] : List String).enum.map fun p => (toString p.1, p.2)) ∧
    (1 < (["person", "bicycle"] : List String).length ∧
      ((["person", "bicycle"] : List String).enum.map fun p => (toString p.1, p.2)).getD 1 ("", "") =
        (toString 1, (["person", "bicycle"] : List String).getD 1 "")) ∧
    resolve_class_names (fun _ => PyValue.pyInt 0) [] (.pyInt 7) =
      .error (.valueError
        ("class_names must be a str identifier, dict, json file, or list of class names got int")) :=
  ⟨(c10_class_names_list_accepted (fun _ => PyValue.pyInt 0) []).1 ["person", "bicycle"],
    ⟨by decide,
      (c10_class_names_list_accepted (fun _ => PyValue.pyInt 0) []).2.1 ["person", "bicycle"] 1
        (by decide)⟩,
    (c10_class_names_list_accepted (fun _ => PyValue.pyInt 0) []).2.2 7⟩
